import Mathlib

/-!
Verification of the Business-Card-Scanner client (`app.py`) against its
specification.  The Python code is shallowly embedded:

* Python strings (`str`) are lists of characters (`PyStr`).
* JSON values occurring in card records are `Val` (null, string, or list of
  strings).
* DataFrame cells are `Option Val`, with `none` standing for pandas `NaN`
  (a key missing from a record while its column exists); a Python `None`
  stored under a present key is `some Val.vNull`.
* The editable grid holds string-or-missing cells (`Option PyStr`), with
  `none` for `NaN`/`None` — exactly the values `pd.isna` sends to `""` in
  the save-time diff.
* HTTP calls are oracles: a call result is either a raised exception
  (transport failure, carrying its message) or a response with a status
  code and a body; `raise_for_status` raising on 400–599 is part of the
  embedded control flow.
-/

/-- Python strings are modelled as lists of characters. -/
abbrev PyStr := List Char

/-- JSON object / DataFrame column keys. -/
abbrev Key := PyStr

/-- ASCII whitespace, modelling what Python `str.strip()` removes. -/
def isSpace (c : Char) : Bool := (c == ' ') || (c == '\t') || (c == '\n') || (c == '\r')

/-- Python `s.strip()`: drop leading whitespace, then trailing whitespace. -/
def strip (s : PyStr) : PyStr := (s.dropWhile isSpace).rdropWhile isSpace

/-- The separator of `", ".join(...)` in `list_to_csv_str`. -/
def commaSpace : PyStr := [',', ' ']

/-- JSON values appearing in card records. -/
inductive Val where
  | vNull : Val
  | vStr  : PyStr → Val
  | vList : List PyStr → Val
deriving DecidableEq

/-- A JSON object (Python dict): keys in insertion order, keys unique. -/
abbrev Record := List (Key × Val)

/-- A DataFrame cell: `none` is pandas `NaN` (key absent from the record). -/
abbrev DCell := Option Val

/-- `list_to_csv_str` from app.py lines 35-38: a list joins with `", "`,
`None` becomes `""`, any other value is returned unchanged (here: a string
stays itself).  pandas `NaN` cells never reach this function in the embedding:
`.apply` is modelled with `Option.map`, matching `v if v is not None` which
returns `NaN` unchanged. -/
def list_to_csv_str : Val → PyStr
  | Val.vList xs => List.intercalate commaSpace xs
  | Val.vNull    => []
  | Val.vStr s   => s

/-- `csv_str_to_list` from app.py lines 40-43: `None` gives `[]`, otherwise
split on `','`, strip each piece, keep the non-empty ones. -/
def csv_str_to_list : Option PyStr → List PyStr
  | none   => []
  | some s => ((s.splitOn ',').map strip).filter (fun x => x != [])

/-- Column-name constants of app.py. -/
def idKey : Key := "_id".toList

def nameKey : Key := "name".toList

def designationKey : Key := "designation".toList

def companyKey : Key := "company".toList

def phoneKey : Key := "phone_numbers".toList

def emailKey : Key := "email".toList

def websiteKey : Key := "website".toList

def addressKey : Key := "address".toList

def socialKey : Key := "social_links".toList

def notesKey : Key := "additional_notes".toList

def createdKey : Key := "created_at".toList

def editedKey : Key := "edited_at".toList

/-- `expected_cols` from app.py lines 211-215. -/
def expected_cols : List Key :=
  [idKey, nameKey, designationKey, companyKey, phoneKey, emailKey,
   websiteKey, addressKey, socialKey, notesKey, createdKey, editedKey]

/-- The two list-valued columns, `["phone_numbers", "social_links"]`. -/
def listCols : List Key := [phoneKey, socialKey]

/-- One entry of `_clean_payload_for_backend` (app.py lines 45-54): `None`
values are skipped; for the two list fields a non-list value is run through
`csv_str_to_list`, a list is kept as is; every other value is kept as is. -/
def cleanEntry (k : Key) (v : Val) : Option (Key × Val) :=
  match v with
  | Val.vNull => none
  | Val.vStr s =>
      if k ∈ listCols then some (k, Val.vList (csv_str_to_list (some s)))
      else some (k, Val.vStr s)
  | Val.vList xs => some (k, Val.vList xs)

/-- `_clean_payload_for_backend` from app.py lines 45-54. -/
def clean_payload_for_backend (payload : Record) : Record :=
  payload.filterMap (fun kv => cleanEntry kv.1 kv.2)

/-- The columns of `pd.DataFrame(data)` built from a list of JSON objects:
record keys in first-seen order. -/
def dataColumns (data : List Record) : List Key :=
  data.foldl (fun acc r => r.foldl (fun a kv => if kv.1 ∈ a then a else a ++ [kv.1]) acc) []

/-- Columns of `df_all` after the fill loop of app.py lines 216-218: the data
columns followed by every expected column that was absent. -/
def df_all_columns (data : List Record) : List Key :=
  dataColumns data ++ expected_cols.filter (fun c => c ∉ dataColumns data)

/-- Value of a record at a column of `pd.DataFrame(data)`: the stored value,
or `NaN` if the record lacks the key. -/
def lookupCell (r : Record) (c : Key) : DCell := r.lookup c

/-- A cell of `df_all` after the fill loop: a data column reads the record,
a filled expected column is the empty string everywhere. -/
def df_all_cell (data : List Record) (r : Record) (c : Key) : DCell :=
  if c ∈ dataColumns data then lookupCell r c
  else if c ∈ expected_cols then some (Val.vStr []) else none

/-- Columns of `display_df` (app.py line 226): `df_all` minus `_id`. -/
def display_columns (data : List Record) : List Key :=
  (df_all_columns data).filter (fun c => c != idKey)

/-- A cell of `display_df` (app.py lines 222-224): the two list columns pass
through `list_to_csv_str` via `.apply` (with `NaN` untouched, since
`list_to_csv_str` returns any non-`None` non-list value unchanged); every
other column is taken from `df_all` as is. -/
def display_cell (data : List Record) (r : Record) (c : Key) : DCell :=
  if c ∈ listCols then
    (df_all_cell data r c).map (fun v => Val.vStr (list_to_csv_str v))
  else df_all_cell data r c

/-- `"" if pd.isna(v) else v` followed by `str(...)` in the diff of app.py
lines 251-253, on a grid cell (string or missing). -/
def normCell : Option PyStr → PyStr
  | none   => []
  | some s => s

/-- The value stored into a change set for a changed column (app.py line
254): list columns are re-split, every other column keeps the edited string. -/
def changeVal (c : Key) (n : PyStr) : Val :=
  if c ∈ listCols then Val.vList (csv_str_to_list (some n)) else Val.vStr n

/-- The per-row change set of the save loop (app.py lines 249-254): every
displayed column whose normalized edited value differs from the normalized
original value, mapped through `changeVal`. -/
def rowChangeSet (cols : List Key) (orig new : Key → Option PyStr) : Record :=
  cols.filterMap (fun c =>
    if normCell (orig c) ≠ normCell (new c)
    then some (c, changeVal c (normCell (new c)))
    else none)

/-- One row of the editable grid at save time: the backend id (from `_ids`)
and the original/edited cells indexed by column. -/
structure GridRow where
  id   : PyStr
  orig : Key → Option PyStr
  new  : Key → Option PyStr

/-- Result the `requests.patch` call produces for one row: a response with
status and body text, or a raised exception with its message. -/
inductive PatchResult where
  | resp (status : Nat) (text : PyStr)
  | exn  (msg : PyStr)
deriving DecidableEq

/-- A user-visible Streamlit notice. -/
inductive Notice where
  | errorN   (msg : PyStr)
  | successN (msg : PyStr)
  | infoN    (msg : PyStr)
  | warningN (msg : PyStr)
deriving DecidableEq

/-- The message `f"Failed to update {card_id}: {t}"` of app.py lines 268/271. -/
def failMsg (cardId txt : PyStr) : PyStr :=
  "Failed to update ".toList ++ cardId ++ ": ".toList ++ txt

/-- Mutable state of the save loop (app.py lines 242-271): the two counters,
the update requests issued so far, and the error notices shown so far. -/
structure SaveState where
  updates  : Nat
  problems : Nat
  requests : List (PyStr × Record)
  notices  : List Notice
deriving DecidableEq

/-- One iteration of the save loop (app.py lines 245-271): an empty change
set issues nothing; otherwise a PATCH is issued, a 200/201 response counts a
success, any other response or an exception counts a problem and shows an
error with the card id and the backend text. -/
def processRow (patch : PyStr → Record → PatchResult) (cols : List Key)
    (st : SaveState) (row : GridRow) : SaveState :=
  let cs := rowChangeSet cols row.orig row.new
  if cs = [] then st
  else
    match patch row.id cs with
    | PatchResult.resp status text =>
        if status = 200 ∨ status = 201 then
          { st with updates := st.updates + 1, requests := st.requests ++ [(row.id, cs)] }
        else
          { st with problems := st.problems + 1, requests := st.requests ++ [(row.id, cs)],
                    notices := st.notices ++ [Notice.errorN (failMsg row.id text)] }
    | PatchResult.exn msg =>
        { st with problems := st.problems + 1, requests := st.requests ++ [(row.id, cs)],
                  notices := st.notices ++ [Notice.errorN (failMsg row.id msg)] }

/-- The whole save loop over the grid rows, starting from zeroed state. -/
def saveLoop (patch : PyStr → Record → PatchResult) (cols : List Key)
    (rows : List GridRow) : SaveState :=
  rows.foldl (processRow patch cols) ⟨0, 0, [], []⟩

/-- What the UI does after the save loop (app.py lines 273-279). -/
inductive SaveOutcome where
  | successReload  (updates : Nat)
  | noChanges
  | failureWarning (problems : Nat)
deriving DecidableEq

/-- `if updates: ... st.experimental_rerun() elif problems == 0: ... else: ...`
(app.py lines 273-279). -/
def finalOutcome (st : SaveState) : SaveOutcome :=
  if st.updates ≠ 0 then SaveOutcome.successReload st.updates
  else if st.problems = 0 then SaveOutcome.noChanges
  else SaveOutcome.failureWarning st.problems

/-- A parsed JSON response body, seen through the only access the code makes:
whether the `"data"` key is present and, if so, its payload. -/
inductive JsonBody (α : Type) where
  | withData (d : α)
  | noData
deriving DecidableEq

/-- Outcome of one `requests` call: a raised exception with its message
(transport failure), or a response with a status code and body. -/
inductive CallResult (α : Type) where
  | exn  (msg : PyStr)
  | resp (status : Nat) (body : JsonBody α)
deriving DecidableEq

/-- `raise_for_status` raises exactly for HTTP status 400-599. -/
def raisesForStatus (status : Nat) : Prop := 400 ≤ status ∧ status ≤ 599

instance (status : Nat) : Decidable (raisesForStatus status) := by
  unfold raisesForStatus; infer_instance

/-- `fetch_all_cards` (app.py lines 56-64), given the library's rendering of
an `HTTPError` as `httpErrStr` and the call outcome: any exception is caught,
shows an error notice and yields `[]`; otherwise the result is
`data.get("data", [])`.  Returns the list together with the notices shown. -/
def fetch_all_cards (httpErrStr : Nat → PyStr) (r : CallResult (List Record)) :
    List Record × List Notice :=
  match r with
  | CallResult.exn msg =>
      ([], [Notice.errorN ("Failed to fetch cards: ".toList ++ msg)])
  | CallResult.resp status body =>
      if raisesForStatus status then
        ([], [Notice.errorN ("Failed to fetch cards: ".toList ++ httpErrStr status)])
      else
        match body with
        | JsonBody.withData d => (d, [])
        | JsonBody.noData     => ([], [])

/-- The notices produced by the manual-entry submit handler (app.py lines
155-179) for a given call outcome.  An exception (transport failure or
`raise_for_status` on 400-599) shows an error; a 200/201 response with a
`"data"` payload shows a success; a 200/201 response without a `"data"`
payload, or any other non-raising status, falls through both `if`s with no
`else` and shows nothing. -/
def manual_create_notices (httpErrStr : Nat → PyStr) (r : CallResult Record) :
    List Notice :=
  match r with
  | CallResult.exn msg =>
      [Notice.errorN ("Failed to reach backend: ".toList ++ msg)]
  | CallResult.resp status body =>
      if raisesForStatus status then
        [Notice.errorN ("Failed to reach backend: ".toList ++ httpErrStr status)]
      else if status = 200 ∨ status = 201 then
        match body with
        | JsonBody.withData _ => [Notice.successN "Inserted Successfully!".toList]
        | JsonBody.noData     => []
      else []

/-- An outgoing HTTP request as the code builds it: method, path appended to
the backend base URL, and the `timeout=` argument in seconds. -/
structure HttpRequest where
  method  : PyStr
  path    : PyStr
  timeout : Nat
deriving DecidableEq

/-- `requests.get(f"{BACKEND}/all_cards", timeout=timeout)` with the default
`timeout=20` (app.py lines 56-58, called with no argument). -/
def all_cards_request : HttpRequest :=
  { method := "GET".toList, path := "/all_cards".toList, timeout := 20 }

/-- `requests.post(f"{BACKEND}/upload_card", files=files, timeout=120)`
(app.py line 93). -/
def upload_card_request : HttpRequest :=
  { method := "POST".toList, path := "/upload_card".toList, timeout := 120 }

/-- `requests.post(f"{BACKEND}/create_card", json=..., timeout=30)`
(app.py lines 157-161). -/
def create_card_request : HttpRequest :=
  { method := "POST".toList, path := "/create_card".toList, timeout := 30 }

/-- `requests.patch(f"{BACKEND}/update_card/{card_id}", json=..., timeout=30)`
(app.py lines 259-263). -/
def update_card_request (cardId : PyStr) : HttpRequest :=
  { method := "PATCH".toList, path := "/update_card/".toList ++ cardId, timeout := 30 }

/-- Columns of the single-record exports (app.py lines 104-111 and 172-179):
`pd.DataFrame([card]).drop(columns=["_id"], errors="ignore")` — the record's
keys minus `_id`, with no list-column conversion. -/
def singleCardExportCols (card : Record) : List Key :=
  (card.map Prod.fst).filter (fun c => c != idKey)

/-- A cell of the single-record exports: the stored value, unconverted. -/
def singleCardExportCell (card : Record) (c : Key) : DCell := lookupCell card c

/-- Columns of the download-all export (app.py lines 193-198):
`pd.DataFrame(data)` with the two list columns converted, then `_id` dropped. -/
def downloadAllCols (data : List Record) : List Key :=
  (dataColumns data).filter (fun c => c != idKey)

/-- A cell of the download-all export: list columns pass through
`list_to_csv_str` (`NaN` untouched), other columns are the stored value.
The code assumes both list columns are present in the data (otherwise line
195 raises and no export is offered). -/
def downloadAllCell (r : Record) (c : Key) : DCell :=
  if c ∈ listCols then (lookupCell r c).map (fun v => Val.vStr (list_to_csv_str v))
  else lookupCell r c

/-- Whether a JSON value is a string (used to state that an exported cell is
a comma-joined string rather than a raw list). -/
def isVStr : Val → Bool
  | Val.vStr _ => true
  | _          => false

/-- The comma-join-then-comma-split round trip of the spec: a list value
through `list_to_csv_str` and the result back through `csv_str_to_list`. -/
def joinSplit (xs : List PyStr) : List PyStr :=
  csv_str_to_list (some (list_to_csv_str (Val.vList xs)))

/-- The change set of one grid row. -/
def rowCS (cols : List Key) (r : GridRow) : Record := rowChangeSet cols r.orig r.new

/-- Whether the row issues a PATCH that comes back 200/201. -/
def rowOK (patch : PyStr → Record → PatchResult) (cols : List Key) (r : GridRow) : Bool :=
  if rowCS cols r = [] then false
  else
    match patch r.id (rowCS cols r) with
    | PatchResult.resp s _ => decide (s = 200 ∨ s = 201)
    | PatchResult.exn _ => false

/-- Whether the row issues a PATCH that fails (bad status or exception). -/
def rowBad (patch : PyStr → Record → PatchResult) (cols : List Key) (r : GridRow) : Bool :=
  if rowCS cols r = [] then false
  else
    match patch r.id (rowCS cols r) with
    | PatchResult.resp s _ => decide (¬(s = 200 ∨ s = 201))
    | PatchResult.exn _ => true

/-- The error notices one row contributes. -/
def rowNotices (patch : PyStr → Record → PatchResult) (cols : List Key) (r : GridRow) :
    List Notice :=
  if rowCS cols r = [] then []
  else
    match patch r.id (rowCS cols r) with
    | PatchResult.resp s t =>
        if s = 200 ∨ s = 201 then [] else [Notice.errorN (failMsg r.id t)]
    | PatchResult.exn m => [Notice.errorN (failMsg r.id m)]

/-- The update requests one row issues. -/
def rowRequests (cols : List Key) (r : GridRow) : List (PyStr × Record) :=
  if rowCS cols r = [] then [] else [(r.id, rowCS cols r)]

/-! ## Lemmas about `strip` -/

lemma isSpace_space : isSpace ' ' = true := rfl

lemma strip_space_cons (s : PyStr) : strip (' ' :: s) = strip s := by
  unfold strip
  rw [List.dropWhile_cons_of_pos isSpace_space]

lemma strip_idem (s : PyStr) : strip (strip s) = strip s := by
  unfold strip
  have hpre : (s.dropWhile isSpace).rdropWhile isSpace <+: s.dropWhile isSpace :=
    List.rdropWhile_prefix _ _
  have hdw : ((s.dropWhile isSpace).rdropWhile isSpace).dropWhile isSpace
      = (s.dropWhile isSpace).rdropWhile isSpace := by
    cases hB : (s.dropWhile isSpace).rdropWhile isSpace with
    | nil => rfl
    | cons b t =>
      rw [hB] at hpre
      obtain ⟨u, hu⟩ := hpre
      have hAhead : s.dropWhile isSpace = b :: (t ++ u) := by rw [← hu]; simp
      have hne : s.dropWhile isSpace ≠ [] := by rw [hAhead]; simp
      have hb : isSpace b = false := by
        have hhead := List.head_dropWhile_not isSpace s hne
        simpa [hAhead] using hhead
      rw [List.dropWhile_cons_of_neg (by simp [hb])]
  rw [hdw, List.rdropWhile_idempotent]

/-- `strip` only removes characters: members of `strip s` are members of `s`. -/
lemma strip_subset (s : PyStr) : ∀ a ∈ strip s, a ∈ s := by
  intro a ha
  have h1 : (s.dropWhile isSpace).rdropWhile isSpace <+: s.dropWhile isSpace :=
    List.rdropWhile_prefix _ _
  have h2 : s.dropWhile isSpace <:+ s := List.dropWhile_suffix _
  exact h2.sublist.subset (h1.sublist.subset ha)

/-! ## Lemmas about `splitOn` and the comma round trip -/

/-- No piece produced by `splitOnP p` contains an element satisfying `p`. -/
lemma splitOnP_pieces {α : Type} (p : α → Bool) (xs : List α) :
    ∀ w ∈ xs.splitOnP p, ∀ a ∈ w, p a = false := by
  induction xs with
  | nil =>
    intro w hw a ha
    rw [List.splitOnP_nil] at hw
    simp at hw
    subst hw
    simp at ha
  | cons x t ih =>
    intro w hw a ha
    rw [List.splitOnP_cons] at hw
    by_cases hx : p x
    · rw [if_pos hx] at hw
      rcases List.mem_cons.mp hw with rfl | hw2
      · simp at ha
      · exact ih w hw2 a ha
    · rw [if_neg hx] at hw
      cases hsp : t.splitOnP p with
      | nil => exact absurd hsp (List.splitOnP_ne_nil p t)
      | cons w0 ws =>
        rw [hsp] at hw
        simp only [List.modifyHead] at hw
        rcases List.mem_cons.mp hw with rfl | hw2
        · rcases List.mem_cons.mp ha with rfl | ha2
          · simpa using hx
          · exact ih w0 (by rw [hsp]; exact List.mem_cons_self _ _) a ha2
        · exact ih w (by rw [hsp]; exact List.mem_cons_of_mem _ hw2) a ha

lemma splitOn_comma_pieces (l : PyStr) : ∀ w ∈ l.splitOn ',', ',' ∉ w := by
  intro w hw hmem
  have := splitOnP_pieces (fun b => b == ',') l w hw ',' hmem
  simp at this

/-- Core of the C4 round trip: joining comma-free strings with `", "` and
splitting back on `','` gives the original strings stripped, with empties
removed. -/
lemma split_join_commafree (xs : List PyStr) (h : ∀ x ∈ xs, ',' ∉ x) :
    (((List.intercalate commaSpace xs).splitOn ',').map strip).filter (fun x => x != []) =
      (xs.map strip).filter (fun x => x != []) := by
  induction xs with
  | nil => decide
  | cons x t ih =>
    have hx : ∀ a ∈ x, ¬((a == ',') = true) := by
      intro a ha hb
      exact (h x (by simp)) (by rwa [eq_of_beq hb] at ha)
    cases t with
    | nil =>
      have h1 : List.intercalate commaSpace [x] = x := by simp [List.intercalate]
      rw [h1]
      have h2 : x.splitOn ',' = [x] := List.splitOnP_eq_single _ _ hx
      rw [h2]
    | cons y t2 =>
      have hstep : List.intercalate commaSpace (x :: y :: t2)
          = x ++ (',' :: (' ' :: List.intercalate commaSpace (y :: t2))) := by
        have h0 : List.intercalate commaSpace (x :: y :: t2)
            = x ++ commaSpace ++ List.intercalate commaSpace (y :: t2) := by
          simp [List.intercalate, List.intersperse]
        rw [h0]
        simp [commaSpace, List.append_assoc]
      rw [hstep]
      show ((List.splitOnP (fun b => b == ',')
          (x ++ ',' :: (' ' :: List.intercalate commaSpace (y :: t2)))).map strip).filter
            (fun x => x != []) = _
      rw [List.splitOnP_first _ x hx ',' (by simp) _]
      rw [List.splitOnP_cons]
      rw [if_neg (by decide)]
      have ih2 := ih (fun a ha => h a (List.mem_cons_of_mem _ ha))
      cases hL : (List.intercalate commaSpace (y :: t2)).splitOn ',' with
      | nil => exact absurd hL (List.splitOnP_ne_nil _ _)
      | cons w ws =>
        rw [show List.splitOnP (fun b => b == ',')
            (List.intercalate commaSpace (y :: t2)) = w :: ws from hL]
        rw [hL] at ih2
        simp only [List.modifyHead, List.map_cons, List.filter_cons, strip_space_cons] at ih2 ⊢
        rw [ih2]

lemma joinSplit_eq (xs : List PyStr) :
    joinSplit xs =
      (((List.intercalate commaSpace xs).splitOn ',').map strip).filter (fun x => x != []) := rfl

/-- Membership in the round-trip output: stripped pieces, never empty. -/
lemma joinSplit_mem (xs : List PyStr) :
    ∀ y ∈ joinSplit xs, (',' ∉ y) ∧ strip y = y ∧ y ≠ [] := by
  intro y hy
  rw [joinSplit_eq] at hy
  have h1 := List.mem_filter.mp hy
  obtain ⟨w, hw, hws⟩ := List.mem_map.mp h1.1
  refine ⟨?_, ?_, ?_⟩
  · intro hc
    exact splitOn_comma_pieces _ w hw (strip_subset w ',' (by rw [hws]; exact hc))
  · rw [← hws, strip_idem]
  · simpa using h1.2

/-! ## Lemmas about the save loop -/

lemma processRow_eq (patch : PyStr → Record → PatchResult) (cols : List Key)
    (st : SaveState) (r : GridRow) :
    processRow patch cols st r =
      { updates  := st.updates + (if rowOK patch cols r then 1 else 0),
        problems := st.problems + (if rowBad patch cols r then 1 else 0),
        requests := st.requests ++ rowRequests cols r,
        notices  := st.notices ++ rowNotices patch cols r } := by
  unfold processRow rowOK rowBad rowRequests rowNotices rowCS
  by_cases h : rowChangeSet cols r.orig r.new = []
  · simp [h]
  · cases hp : patch r.id (rowChangeSet cols r.orig r.new) with
    | resp s t =>
      by_cases hs : s = 200 ∨ s = 201 <;> simp [h, hp, hs]
    | exn m => simp [h, hp]

lemma saveLoop_from (patch : PyStr → Record → PatchResult) (cols : List Key)
    (rows : List GridRow) (st : SaveState) :
    rows.foldl (processRow patch cols) st =
      { updates  := st.updates + rows.countP (rowOK patch cols),
        problems := st.problems + rows.countP (rowBad patch cols),
        requests := st.requests ++ rows.flatMap (rowRequests cols),
        notices  := st.notices ++ rows.flatMap (rowNotices patch cols) } := by
  induction rows generalizing st with
  | nil => simp
  | cons r rs ih =>
    rw [List.foldl_cons, processRow_eq, ih]
    simp only [List.countP_cons, List.flatMap_cons, SaveState.mk.injEq]
    refine ⟨by omega, by omega, ?_, ?_⟩ <;> simp [List.append_assoc]

lemma saveLoop_eq (patch : PyStr → Record → PatchResult) (cols : List Key)
    (rows : List GridRow) :
    saveLoop patch cols rows =
      { updates  := rows.countP (rowOK patch cols),
        problems := rows.countP (rowBad patch cols),
        requests := rows.flatMap (rowRequests cols),
        notices  := rows.flatMap (rowNotices patch cols) } := by
  unfold saveLoop
  rw [saveLoop_from]
  simp

lemma flatMap_rowRequests (cols : List Key) (rows : List GridRow) :
    rows.flatMap (rowRequests cols) =
      (rows.filter (fun r => rowCS cols r != [])).map (fun r => (r.id, rowCS cols r)) := by
  induction rows with
  | nil => rfl
  | cons r rs ih =>
    simp only [List.flatMap_cons, List.filter_cons]
    by_cases h : rowCS cols r = []
    · simp [rowRequests, h, ih]
    · simp [rowRequests, h, ih]

lemma saveLoop_requests (patch : PyStr → Record → PatchResult) (cols : List Key)
    (rows : List GridRow) :
    (saveLoop patch cols rows).requests =
      (rows.filter (fun r => rowCS cols r != [])).map (fun r => (r.id, rowCS cols r)) := by
  rw [saveLoop_eq]
  exact flatMap_rowRequests cols rows

lemma saveLoop_counts (patch : PyStr → Record → PatchResult) (cols : List Key)
    (rows : List GridRow) :
    (saveLoop patch cols rows).updates + (saveLoop patch cols rows).problems =
      (rows.filter (fun r => rowCS cols r != [])).length := by
  rw [saveLoop_eq]
  simp only [← List.countP_eq_length_filter]
  induction rows with
  | nil => rfl
  | cons r rs ih =>
    simp only [List.countP_cons]
    rw [show rs.countP (rowOK patch cols) + (if rowOK patch cols r then 1 else 0) +
        (rs.countP (rowBad patch cols) + (if rowBad patch cols r then 1 else 0)) =
        (rs.countP (rowOK patch cols) + rs.countP (rowBad patch cols)) +
        ((if rowOK patch cols r then 1 else 0) + (if rowBad patch cols r then 1 else 0))
      from by omega]
    rw [ih]
    have hrow : (if rowOK patch cols r then 1 else 0) + (if rowBad patch cols r then 1 else 0) =
        (if (rowCS cols r != []) then 1 else 0) := by
      unfold rowOK rowBad
      by_cases h : rowCS cols r = []
      · simp [h]
      · cases hp : patch r.id (rowCS cols r) with
        | resp s t =>
          by_cases hs : s = 200 ∨ s = 201 <;> simp [h, hp, hs]
        | exn m => simp [h, hp]
    omega

lemma saveLoop_fail_notice (patch : PyStr → Record → PatchResult) (cols : List Key)
    (rows : List GridRow) (r : GridRow) (hr : r ∈ rows)
    (n : Notice) (hn : n ∈ rowNotices patch cols r) :
    n ∈ (saveLoop patch cols rows).notices := by
  rw [saveLoop_eq]
  exact List.mem_flatMap.mpr ⟨r, hr, hn⟩

/-- Membership in a row's change set, with `changeVal` spelled out. -/
lemma mem_rowChangeSet (cols : List Key) (orig new : Key → Option PyStr) (c : Key) (v : Val) :
    (c, v) ∈ rowChangeSet cols orig new ↔
      c ∈ cols ∧ normCell (orig c) ≠ normCell (new c) ∧
        v = (if c ∈ listCols then Val.vList (csv_str_to_list (some (normCell (new c))))
             else Val.vStr (normCell (new c))) := by
  unfold rowChangeSet
  rw [List.mem_filterMap]
  constructor
  · rintro ⟨a, ha, hf⟩
    split_ifs at hf with h
    · simp only [Option.some.injEq, Prod.mk.injEq] at hf
      obtain ⟨rfl, rfl⟩ := hf
      exact ⟨ha, h, by unfold changeVal; rfl⟩
  · rintro ⟨hc, hne, rfl⟩
    exact ⟨c, hc, by rw [if_pos hne]; unfold changeVal; rfl⟩

/-- Second pass of the round trip is the identity on first-pass output. -/
lemma joinSplit_idem (xs : List PyStr) : joinSplit (joinSplit xs) = joinSplit xs := by
  have hmem := joinSplit_mem xs
  rw [joinSplit_eq (joinSplit xs)]
  rw [split_join_commafree _ (fun y hy => (hmem y hy).1)]
  have hmap : (joinSplit xs).map strip = (joinSplit xs).map id :=
    List.map_congr_left (fun y hy => (hmem y hy).2.1)
  rw [hmap, List.map_id]
  exact List.filter_eq_self.mpr (fun y hy => by simpa using (hmem y hy).2.2)

/-! ## Lemmas about `clean_payload_for_backend` -/

lemma cleanEntry_key (k : Key) (v : Val) (k2 : Key) (w : Val)
    (h : cleanEntry k v = some (k2, w)) : k2 = k := by
  unfold cleanEntry at h
  cases v with
  | vNull => exact absurd h (by simp)
  | vStr s =>
    split_ifs at h with hk
    · simp only [Option.some.injEq, Prod.mk.injEq] at h
      exact h.1.symm
    · simp only [Option.some.injEq, Prod.mk.injEq] at h
      exact h.1.symm
  | vList xs =>
    simp only [Option.some.injEq, Prod.mk.injEq] at h
    exact h.1.symm

lemma cleanEntry_ne_null (k : Key) (v : Val) (k2 : Key) (w : Val)
    (h : cleanEntry k v = some (k2, w)) : v ≠ Val.vNull := by
  intro hv
  subst hv
  simp [cleanEntry] at h

/-- In an association list with distinct keys, a key determines its value. -/
lemma nodup_keys_val_eq {l : Record} (h : (l.map Prod.fst).Nodup) {k : Key} {v w : Val}
    (h1 : (k, v) ∈ l) (h2 : (k, w) ∈ l) : v = w := by
  induction l with
  | nil => simp at h1
  | cons a t ih =>
    obtain ⟨k1, v1⟩ := a
    simp only [List.map_cons, List.nodup_cons] at h
    rcases List.mem_cons.mp h1 with heq1 | h1t
    · injection heq1 with hk1 hv1
      rcases List.mem_cons.mp h2 with heq2 | h2t
      · injection heq2 with hk2 hv2
        rw [hv1, hv2]
      · exact absurd (List.mem_map.mpr ⟨(k, w), h2t, hk1⟩) h.1
    · rcases List.mem_cons.mp h2 with heq2 | h2t
      · injection heq2 with hk2 hv2
        exact absurd (List.mem_map.mpr ⟨(k, v), h1t, hk2⟩) h.1
      · exact ih h.2 h1t h2t

/-! ## Claim theorems -/

/-- Claim C1: at save time a row's change set contains exactly those displayed
columns whose edited value differs from the original value under string
comparison after normalizing missing (NaN-like) values to the empty string;
`phone_numbers` and `social_links` enter as the comma-split, trimmed,
non-empty sequence of the edited value, every other changed column as the
edited value itself; and the save loop issues update requests exactly for the
rows whose change set is non-empty, so a row with an empty change set issues
no update request. -/
theorem C1_change_set_exact (cols : List Key) (orig new : Key → Option PyStr)
    (c : Key) (v : Val) (patch : PyStr → Record → PatchResult) (rows : List GridRow) :
    ((c, v) ∈ rowChangeSet cols orig new ↔
      c ∈ cols ∧ normCell (orig c) ≠ normCell (new c) ∧
        v = (if c ∈ listCols then Val.vList (csv_str_to_list (some (normCell (new c))))
             else Val.vStr (normCell (new c))))
    ∧ (saveLoop patch cols rows).requests =
        (rows.filter (fun r => rowCS cols r != [])).map (fun r => (r.id, rowCS cols r)) :=
  ⟨mem_rowChangeSet cols orig new c v, saveLoop_requests patch cols rows⟩

/-- Claim C4 counterexample: the round trip is NOT the identity (up to
trimming and dropping empties) on every string sequence — an element
containing a comma, here `"a,b"`, is split into two elements. -/
theorem C4_counterexample :
    joinSplit [['a', ',', 'b']] ≠
      (([['a', ',', 'b']].map strip).filter (fun x => x != [])) := by decide

/-- Claim C4 (amended): for every string sequence whose elements contain no
comma, comma-joining with `list_to_csv_str` and comma-splitting with
`csv_str_to_list` yields the original sequence with surrounding whitespace
trimmed and empty entries removed; and for every string sequence the
join-then-split round trip is idempotent from the second application on. -/
theorem C4_round_trip :
    (∀ xs : List PyStr, (∀ x ∈ xs, ',' ∉ x) →
        joinSplit xs = (xs.map strip).filter (fun x => x != []))
    ∧ (∀ xs : List PyStr, joinSplit (joinSplit xs) = joinSplit xs) :=
  ⟨fun xs h => by rw [joinSplit_eq]; exact split_join_commafree xs h, joinSplit_idem⟩

/-- Witness for C4 at a concrete comma-free sequence. -/
theorem C4_round_trip_witness :
    joinSplit [" a ".toList, "b".toList, "  ".toList] = ["a".toList, "b".toList] := by
  rw [C4_round_trip.1 [" a ".toList, "b".toList, "  ".toList] (by decide)]
  decide

/-- Claim C5: the identifier column is dropped from the editable grid, and a
change set built over the displayed columns never contains the `_id` key, so
`_id` is never sent to the update endpoint as a mutable field. -/
theorem C5_id_never_sent (data : List Record) (orig new : Key → Option PyStr)
    (kv : Key × Val) :
    idKey ∉ display_columns data
    ∧ (kv ∈ rowChangeSet (display_columns data) orig new → kv.1 ≠ idKey) := by
  have hid : idKey ∉ display_columns data := by
    unfold display_columns
    intro hmem
    have := (List.mem_filter.mp hmem).2
    simp at this
  refine ⟨hid, fun hkv => ?_⟩
  obtain ⟨c, v⟩ := kv
  have hc := ((mem_rowChangeSet _ orig new c v).mp hkv).1
  intro heq
  have heq2 : c = idKey := heq
  rw [heq2] at hc
  exact hid hc

/-- Witness for C5 at a concrete edited grid over one fetched record. -/
theorem C5_id_never_sent_witness :
    (nameKey, Val.vStr ['x']).1 ≠ idKey :=
  (C5_id_never_sent [[(idKey, Val.vStr ['1']), (nameKey, Val.vStr [])]]
      (fun _ => some []) (fun _ => some ['x']) (nameKey, Val.vStr ['x'])).2
    (by decide)

/-- Claim C2 counterexample: a field holding the empty string (falsy in
Python) is NOT dropped from the outgoing create payload — `name: ""` is sent
through unchanged, because the code only skips `None`. -/
theorem C2_counterexample :
    (nameKey, Val.vStr []) ∈ clean_payload_for_backend [(nameKey, Val.vStr [])] := by
  decide

/-- Claim C2 (amended): only fields holding `None` are dropped from the
outgoing create payload; every other field is kept — an empty string is sent
as an empty string (an empty sequence for the two list fields), and every
surviving field comes from a non-`None` input field. -/
theorem C2_only_none_dropped (payload : Record) (k : Key) (s : PyStr) (xs : List PyStr)
    (hnd : (payload.map Prod.fst).Nodup) :
    ((k, Val.vNull) ∈ payload → ∀ w, (k, w) ∉ clean_payload_for_backend payload)
    ∧ ((k, Val.vStr s) ∈ payload →
        (k, if k ∈ listCols then Val.vList (csv_str_to_list (some s)) else Val.vStr s)
          ∈ clean_payload_for_backend payload)
    ∧ ((k, Val.vList xs) ∈ payload → (k, Val.vList xs) ∈ clean_payload_for_backend payload)
    ∧ (∀ w, (k, w) ∈ clean_payload_for_backend payload →
        ∃ v, (k, v) ∈ payload ∧ v ≠ Val.vNull) := by
  refine ⟨?_, ?_, ?_, ?_⟩
  · intro hk w hw
    obtain ⟨a, ha, hf⟩ := List.mem_filterMap.mp hw
    obtain ⟨k1, v1⟩ := a
    have hk1 : k = k1 := cleanEntry_key k1 v1 k w hf
    rw [← hk1] at ha
    have hveq : Val.vNull = v1 := nodup_keys_val_eq hnd hk ha
    rw [← hveq] at hf
    simp [cleanEntry] at hf
  · intro hk
    refine List.mem_filterMap.mpr ⟨(k, Val.vStr s), hk, ?_⟩
    unfold cleanEntry
    split_ifs with h <;> simp [h]
  · intro hk
    exact List.mem_filterMap.mpr ⟨(k, Val.vList xs), hk, rfl⟩
  · intro w hw
    obtain ⟨a, ha, hf⟩ := List.mem_filterMap.mp hw
    obtain ⟨k1, v1⟩ := a
    have hk1 : k = k1 := cleanEntry_key k1 v1 k w hf
    rw [← hk1] at ha
    exact ⟨v1, ha, cleanEntry_ne_null k1 v1 k w hf⟩

/-- Witness for C2: a payload with an empty name, a `None` website and a
phone string keeps the empty name, parses the phones and drops the website. -/
theorem C2_only_none_dropped_witness :
    (nameKey, Val.vStr [])
      ∈ clean_payload_for_backend
        [(nameKey, Val.vStr []), (websiteKey, Val.vNull), (phoneKey, Val.vStr "1, 2".toList)] := by
  have h := (C2_only_none_dropped
    [(nameKey, Val.vStr []), (websiteKey, Val.vNull), (phoneKey, Val.vStr "1, 2".toList)]
    nameKey [] [] (by decide)).2.1 (by decide)
  simpa using h

/-- Claim C3 (code bug): the manual-create handler shows NO notice when the
backend answers with success status 200 but a body without a `"data"` key —
the inner `if "data" in res` has no `else` branch (unlike the upload handler,
which warns), so this error class is silently swallowed. -/
theorem C3_manual_create_silent (httpErrStr : Nat → PyStr) :
    manual_create_notices httpErrStr (CallResult.resp 200 JsonBody.noData) = [] := by
  simp [manual_create_notices, raisesForStatus]

/-- Claim C6: during a bulk save the update requests issued are exactly those
of the rows with non-empty change sets, whatever each PATCH returns (a
failing row never aborts the remaining rows); a row whose PATCH fails is
reported with its identifier and the backend error text (response text or
exception message); and after the loop: at least one success shows the
success count and triggers the reload, no changed row at all shows the
neutral no-changes notice, and failures without any success show the
failure-count warning. -/
theorem C6_bulk_save_outcomes (patch : PyStr → Record → PatchResult) (cols : List Key)
    (rows : List GridRow) :
    ((saveLoop patch cols rows).requests =
        (rows.filter (fun r => rowCS cols r != [])).map (fun r => (r.id, rowCS cols r)))
    ∧ (∀ r ∈ rows, rowCS cols r ≠ [] →
        (∀ s t, patch r.id (rowCS cols r) = PatchResult.resp s t → ¬(s = 200 ∨ s = 201) →
          Notice.errorN (failMsg r.id t) ∈ (saveLoop patch cols rows).notices)
        ∧ (∀ m, patch r.id (rowCS cols r) = PatchResult.exn m →
          Notice.errorN (failMsg r.id m) ∈ (saveLoop patch cols rows).notices))
    ∧ ((saveLoop patch cols rows).updates ≠ 0 →
        finalOutcome (saveLoop patch cols rows) =
          SaveOutcome.successReload (saveLoop patch cols rows).updates)
    ∧ ((∀ r ∈ rows, rowCS cols r = []) →
        finalOutcome (saveLoop patch cols rows) = SaveOutcome.noChanges)
    ∧ ((saveLoop patch cols rows).updates = 0 → (saveLoop patch cols rows).problems ≠ 0 →
        finalOutcome (saveLoop patch cols rows) =
          SaveOutcome.failureWarning (saveLoop patch cols rows).problems) := by
  refine ⟨saveLoop_requests patch cols rows, ?_, ?_, ?_, ?_⟩
  · intro r hr hcs
    constructor
    · intro s t hp hs
      refine saveLoop_fail_notice patch cols rows r hr _ ?_
      simp [rowNotices, hcs, hp, hs]
    · intro m hp
      refine saveLoop_fail_notice patch cols rows r hr _ ?_
      simp [rowNotices, hcs, hp]
  · intro hu
    unfold finalOutcome
    rw [if_pos hu]
  · intro hall
    have hfilter : rows.filter (fun r => rowCS cols r != []) = [] :=
      List.filter_eq_nil_iff.mpr (fun r hr => by simp [hall r hr])
    have hcount := saveLoop_counts patch cols rows
    rw [hfilter] at hcount
    simp only [List.length_nil] at hcount
    unfold finalOutcome
    rw [if_neg (by omega), if_pos (by omega)]
  · intro hu hp
    unfold finalOutcome
    rw [if_neg (by omega), if_neg hp]

/-- Witness for C6: one changed row whose PATCH returns HTTP 500 is reported
with its id and the backend text. -/
theorem C6_bulk_save_outcomes_witness :
    Notice.errorN (failMsg "1".toList "boom".toList) ∈
      (saveLoop (fun _ _ => PatchResult.resp 500 "boom".toList) [nameKey]
        [⟨"1".toList, fun _ => some [], fun _ => some ['x']⟩]).notices := by
  have h := ((C6_bulk_save_outcomes (fun _ _ => PatchResult.resp 500 "boom".toList) [nameKey]
      [⟨"1".toList, fun _ => some [], fun _ => some ['x']⟩]).2.1
    ⟨"1".toList, fun _ => some [], fun _ => some ['x']⟩ (List.mem_singleton.mpr rfl)
    (by decide)).1 500 "boom".toList rfl (by decide)
  exact h

/-- Claim C7 counterexample: the single-record export (upload and manual
tabs) does NOT comma-join list-valued columns — a stored phone list is
exported as the raw list value, not as a string. -/
theorem C7_counterexample :
    phoneKey ∈ singleCardExportCols [(idKey, Val.vStr ['1']), (phoneKey, Val.vList [['5']])]
    ∧ (singleCardExportCell [(idKey, Val.vStr ['1']), (phoneKey, Val.vList [['5']])]
        phoneKey).map isVStr = some false := by
  decide

/-- Claim C7 (amended): the identifier column is excluded from every export
(single-record and full listing); in the full-listing export the two
list-valued columns appear as the comma-joined string of the stored value;
but the single-record exports write each stored value unconverted, so a list
value stays a raw list there. -/
theorem C7_export_shape (card : Record) (data : List Record) (r : Record) (c : Key) :
    idKey ∉ singleCardExportCols card
    ∧ idKey ∉ downloadAllCols data
    ∧ (c ∈ listCols →
        downloadAllCell r c = (lookupCell r c).map (fun v => Val.vStr (list_to_csv_str v)))
    ∧ singleCardExportCell card c = lookupCell card c := by
  refine ⟨?_, ?_, ?_, rfl⟩
  · intro hmem
    have := (List.mem_filter.mp hmem).2
    simp at this
  · intro hmem
    have := (List.mem_filter.mp hmem).2
    simp at this
  · intro hc
    unfold downloadAllCell
    rw [if_pos hc]

/-- Witness for C7: in the full-listing export a stored phone list is the
comma-joined string. -/
theorem C7_export_shape_witness :
    downloadAllCell [(phoneKey, Val.vList [['5'], ['6']])] phoneKey
      = some (Val.vStr "5, 6".toList) := by
  rw [(C7_export_shape [] [] [(phoneKey, Val.vList [['5'], ['6']])] phoneKey).2.2.1 (by decide)]
  decide

/-- Claim C8 counterexample: a present field holding `None` in a non-list
column is passed to the display grid unconverted — a null marker, not the
empty string. -/
theorem C8_counterexample :
    display_cell [[(idKey, Val.vStr ['1']), (emailKey, Val.vNull)]]
        [(idKey, Val.vStr ['1']), (emailKey, Val.vNull)] emailKey = some Val.vNull
    ∧ some Val.vNull ≠ some (Val.vStr []) := by
  decide

/-- Claim C8 (amended): an expected column absent from every fetched record
is filled with the empty string in every row, and a list-column cell holding
`None` converts to the empty string via `list_to_csv_str`; but a non-list
column present in the data passes its cells through unchanged, so a stored
`None` (or a `NaN` from a partially missing column) keeps its null marker in
the display table. -/
theorem C8_display_fill (data : List Record) (r : Record) (c : Key) :
    (c ∈ expected_cols → c ∉ dataColumns data → display_cell data r c = some (Val.vStr []))
    ∧ (c ∈ listCols → c ∈ dataColumns data → lookupCell r c = some Val.vNull →
        display_cell data r c = some (Val.vStr []))
    ∧ (c ∉ listCols → c ∈ dataColumns data → display_cell data r c = lookupCell r c) := by
  refine ⟨?_, ?_, ?_⟩
  · intro hexp hnd
    unfold display_cell df_all_cell
    by_cases hl : c ∈ listCols
    · rw [if_pos hl, if_neg hnd, if_pos hexp]
      rfl
    · rw [if_neg hl, if_neg hnd, if_pos hexp]
  · intro hl hd hnull
    unfold display_cell df_all_cell
    rw [if_pos hl, if_pos hd, hnull]
    rfl
  · intro hl hd
    unfold display_cell df_all_cell
    rw [if_neg hl, if_pos hd]

/-- Witness for C8: with one record that has only `_id`, the absent `email`
column is filled with the empty string. -/
theorem C8_display_fill_witness :
    display_cell [[(idKey, Val.vStr ['1'])]] [(idKey, Val.vStr ['1'])] emailKey
      = some (Val.vStr []) :=
  (C8_display_fill [[(idKey, Val.vStr ['1'])]] [(idKey, Val.vStr ['1'])] emailKey).1
    (by decide) (by decide)

/-- Claim C9 counterexample: the manual-create call does not use the ≈20 s
timeout class the claim assigns it — its timeout is 30 s, the update-class
value. -/
theorem C9_counterexample :
    create_card_request.timeout = 30 ∧ create_card_request.timeout ≠ 20 := by
  decide

/-- Claim C9 (amended): timeouts are fixed per call class — 20 s for the
list-all fetch, 30 s for the manual create, 30 s for each per-row update, and
120 s for the image upload. -/
theorem C9_timeouts (cardId : PyStr) :
    all_cards_request.timeout = 20
    ∧ create_card_request.timeout = 30
    ∧ (update_card_request cardId).timeout = 30
    ∧ upload_card_request.timeout = 120 :=
  ⟨rfl, rfl, rfl, rfl⟩

/-- Claim C10: `fetch_all_cards` always yields a list — the empty list on a
raised exception (transport failure) and on a raising HTTP status 400-599,
the empty list when a non-raising response lacks the `"data"` key, and the
`"data"` payload itself otherwise. -/
theorem C10_fetch_always_list (httpErrStr : Nat → PyStr) (r : CallResult (List Record)) :
    (∀ m, r = CallResult.exn m → (fetch_all_cards httpErrStr r).1 = [])
    ∧ (∀ s b, r = CallResult.resp s b → raisesForStatus s →
        (fetch_all_cards httpErrStr r).1 = [])
    ∧ (∀ s, r = CallResult.resp s JsonBody.noData → (fetch_all_cards httpErrStr r).1 = [])
    ∧ (∀ s d, r = CallResult.resp s (JsonBody.withData d) → ¬ raisesForStatus s →
        (fetch_all_cards httpErrStr r).1 = d) := by
  refine ⟨?_, ?_, ?_, ?_⟩
  · rintro m rfl
    rfl
  · rintro s b rfl hs
    simp only [fetch_all_cards]
    rw [if_pos hs]
  · rintro s rfl
    simp only [fetch_all_cards]
    by_cases hs : raisesForStatus s
    · rw [if_pos hs]
    · rw [if_neg hs]
  · rintro s d rfl hs
    simp only [fetch_all_cards]
    rw [if_neg hs]

/-- Witness for C10: a 200 response without a `"data"` key yields the empty
list. -/
theorem C10_fetch_always_list_witness :
    (fetch_all_cards (fun _ => []) (CallResult.resp 200 JsonBody.noData)).1 = [] :=
  (C10_fetch_always_list (fun _ => []) (CallResult.resp 200 JsonBody.noData)).2.2.1 200 rfl
